import Mathlib

/-!
Shallow embedding of the `AuthManager` component of `assets/js/auth.js`
(role/permission/session/audit-log engine of the collection-management demo).

Modelling conventions, fixed once for the whole development:

* JSON values are modelled by the inductive `Json`.  The platform pair
  `JSON.stringify` / `JSON.parse` is the identity at this level, so data that
  the source round-trips through string storage is modelled by its `Json`
  value.  A stored string is modelled by `StoredVal`, which distinguishes
  the empty string (falsy in the source's truthiness guards), a non-empty
  string on which `JSON.parse` throws, and a non-empty string together with
  its parse.
* Time instants (`Date.now()`, `new Date().toISOString()`, session and audit
  timestamps) are modelled by their millisecond value (`Nat`).  This is
  faithful because `toISOString` / `new Date(iso).getTime()` round-trips
  instants at millisecond precision.
* The ambient browser environment of one call (current time, the random id
  suffix, `navigator.userAgent`, `window.location`) is a record `AuditEnv`
  passed explicitly.
* `this.currentUser` is a raw dynamic value in the source (`loadSession`
  assigns the parse result without validation), so it is modelled as `Json`,
  with `Json.null` for the JS `null`.  Property access, truthiness, string
  conversion and strict equality are modelled by `jsField`, `jsTruthy`,
  `jsToString` and `jsStrictEq` below.
-/

inductive Json where
  | null : Json
  | bool : Bool → Json
  | num : Int → Json
  | str : String → Json
  | arr : List Json → Json
  | obj : List (String × Json) → Json
deriving Repr

/-- JS truthiness of a value (`!v` in the source negates this).  `NaN` and
`undefined` do not arise as `Json` values in this model. -/
def jsTruthy : Json → Bool
  | .null => false
  | .bool b => b
  | .num n => n ≠ 0
  | .str s => s ≠ ""
  | .arr _ => true
  | .obj _ => true

/-- Property access `v[k]` on a non-null value: `none` models `undefined`.
Objects are looked up by key (first occurrence); primitives and arrays have
none of the properties the source reads. -/
def jsField : Json → String → Option Json
  | .obj kvs, k => kvs.lookup k
  | _, _ => none

/-- Optional-chaining access `v?.k`: short-circuits on `null`. -/
def jsOptField : Json → String → Option Json
  | .null, _ => none
  | j, k => jsField j k

/-- JS `||` with a defined right operand: the left value if it is defined and
truthy, otherwise the right value. -/
def jsOr (l : Option Json) (r : Json) : Json :=
  match l with
  | some v => if jsTruthy v then v else r
  | none => r

/-- Join a list of strings with a separator, as JS `Array.prototype.join`. -/
def joinWith (sep : String) : List String → String
  | [] => ""
  | [x] => x
  | x :: xs => x ++ sep ++ joinWith sep xs

mutual
/-- JS `String(v)` conversion for the values of this model: `null` prints as
`"null"`, numbers in decimal, arrays join their elements with `","` (with
`null` elements printing as empty), objects print as `[object Object]`. -/
def jsToString : Json → String
  | .null => "null"
  | .bool b => if b then "true" else "false"
  | .num n => toString n
  | .str s => s
  | .arr l => joinWith "," (jsToStringArr l)
  | .obj _ => "[object Object]"

def jsToStringArr : List Json → List String
  | [] => []
  | j :: js => (match j with | .null => "" | _ => jsToString j) :: jsToStringArr js
end

/-- JS strict equality `===` restricted to the comparisons the source
performs: primitive values compare structurally; for objects and arrays
`===` is reference equality, and the filter value and a stored entry field
are distinct references in the source, so those comparisons are `false`. -/
def jsStrictEq : Json → Json → Bool
  | .null, .null => true
  | .bool a, .bool b => a = b
  | .num a, .num b => a = b
  | .str a, .str b => a = b
  | _, _ => false

/-- Millisecond value of `new Date(v).getTime()` for a `Json` argument:
numbers are epoch milliseconds, `null` is 0, booleans coerce to 0/1,
everything else is an invalid date (`none` models `NaN`; instants are
numbers in this model, so date strings do not arise). -/
def jsDateMs : Json → Option Int
  | .num n => some n
  | .null => some 0
  | .bool b => some (if b then 1 else 0)
  | _ => none

/-- Object literal whose fields may be `undefined` (`none`): such fields are
dropped, which is how they behave under `JSON.stringify` and every
observation the source makes of its payload objects. -/
def mkObj (fields : List (String × Option Json)) : Json :=
  .obj (fields.filterMap (fun kv => kv.2.map (fun v => (kv.1, v))))

/-- One role record of `this.roles` in the `AuthManager` constructor. -/
structure Role where
  name : String
  permissions : List String
  dashboardAccess : Bool
  defaultSection : Option String
deriving Repr, DecidableEq

def guestRole : Role :=
  { name := "Guest"
    permissions := ["view:public", "read:catalog"]
    dashboardAccess := false
    defaultSection := none }

def researcherRole : Role :=
  { name := "Researcher"
    permissions := ["view:public", "read:catalog", "download:metadata"]
    dashboardAccess := false
    defaultSection := none }

def curatorRole : Role :=
  { name := "Curator"
    permissions := ["view:public", "read:catalog", "write:artifacts", "edit:metadata",
      "generate:reports", "view:dashboard", "export:data", "propose:deaccession"]
    dashboardAccess := true
    defaultSection := some "overview" }

def boardRole : Role :=
  { name := "Board Member"
    permissions := ["view:public", "read:catalog", "view:dashboard", "view:reports",
      "approve:deaccession", "view:financial", "export:reports", "audit:readonly"]
    dashboardAccess := true
    defaultSection := some "reports" }

def auditorRole : Role :=
  { name := "External Auditor"
    permissions := ["view:public", "read:catalog", "view:dashboard", "audit:full",
      "export:reports", "view:compliance"]
    dashboardAccess := true
    defaultSection := some "compliance" }

def adminRole : Role :=
  { name := "System Administrator"
    permissions := ["*"]
    dashboardAccess := true
    defaultSection := some "overview" }

/-- Lookup `this.roles[key]`: the six fixed roles of the constructor. -/
def getRole (key : String) : Option Role :=
  if key = "guest" then some guestRole
  else if key = "researcher" then some researcherRole
  else if key = "curator" then some curatorRole
  else if key = "board" then some boardRole
  else if key = "auditor" then some auditorRole
  else if key = "admin" then some adminRole
  else none

/-- Key used for the role lookup `this.roles[this.currentUser.role]`: the JS
string conversion of the property value, `undefined` printing as
`"undefined"`. -/
def jsKeyOf : Option Json → String
  | none => "undefined"
  | some j => jsToString j

def takeUntilColon : List Char → List Char
  | [] => []
  | c :: cs => if c = ':' then [] else c :: takeUntilColon cs

/-- First component of `permission.split(':')`: the substring before the
first `':'`, the whole string when it contains none. -/
def categoryOf (p : String) : String := String.mk (takeUntilColon p.data)

/-- `hasPermission(permission)` (auth.js lines 200-212), as a function of the
current `this.currentUser` value. -/
def hasPermission (cu : Json) (permission : String) : Bool :=
  if !jsTruthy cu then false
  else
    match getRole (jsKeyOf (jsField cu "role")) with
    | none => false
    | some role =>
      if role.permissions.contains "*" then true
      else if role.permissions.contains permission then true
      else
        let category := categoryOf permission
        if category ≠ "" then role.permissions.contains (category ++ ":*")
        else false

/-- The session object built by `setSession` (auth.js lines 78-90). -/
structure Session where
  username : String
  role : String
  name : String
  timestamp : Nat
  sessionId : String
  twoFactor : Bool
deriving Repr, DecidableEq

/-- Serialized form of a session, with the field order of the object literal
in `setSession`. -/
def sessionToJson (s : Session) : Json :=
  .obj [("username", .str s.username), ("role", .str s.role), ("name", .str s.name),
    ("timestamp", .num s.timestamp), ("sessionId", .str s.sessionId),
    ("twoFactor", .bool s.twoFactor)]

/-- Strict well-formedness of a persisted session value: an object carrying
exactly the fields `setSession` serializes, with their types. -/
def decodeSession (j : Json) : Option Session :=
  match j with
  | .obj kvs =>
    match kvs.lookup "username", kvs.lookup "role", kvs.lookup "name",
        kvs.lookup "timestamp", kvs.lookup "sessionId", kvs.lookup "twoFactor" with
    | some (.str u), some (.str r), some (.str n), some (.num t), some (.str sid),
        some (.bool tf) =>
      if t < 0 then none else some ⟨u, r, n, t.toNat, sid, tf⟩
    | _, _, _, _, _, _ => none
  | _ => none

/-- One audit-log record as constructed in `logAudit` (auth.js lines 227-238).
`userId` and `userRole` are dynamic values (`||`-defaulted reads of the
current user), hence `Json`. -/
structure AuditEntry where
  id : String
  timestamp : Nat
  event : String
  userId : Json
  userRole : Json
  userAgent : String
  ip : String
  path : String
  data : Json
deriving Repr

/-- Ambient browser environment of one call into the component. -/
structure AuditEnv where
  nowMs : Nat
  randSuffix : String
  userAgent : String
  path : String
  href : String
deriving Repr

/-- A string held under a localStorage key, as the source observes it:
`emptyStr` is the empty string (the only falsy string — it fails the
source's `if (stored)`-style truthiness guards, and `JSON.parse` would
throw on it), `unparsable` is a non-empty string on which `JSON.parse`
throws, and `val j` is a non-empty string parsing to the value `j`. -/
inductive StoredVal where
  | emptyStr : StoredVal
  | unparsable : StoredVal
  | val : Json → StoredVal
deriving Repr

/-- Component state: the current user, the in-memory audit log, and the
localStorage keys the component touches (`none` = key absent, which
`getItem` reports as `null`). -/
structure AuthState where
  currentUser : Json
  auditLog : List AuditEntry
  storedAuth : Option StoredVal
  storedAudit : Option StoredVal
  storedRedirect : Option String
  storedMessage : Option String
deriving Repr

/-- The entry object `logAudit` constructs: id from the clock and a random
suffix, user fields read off `this.currentUser` with `||` defaults, fixed
`ip`, and the caller's payload. -/
def mkAuditEntry (env : AuditEnv) (cu : Json) (event : String) (data : Json) : AuditEntry :=
  { id := "audit-" ++ toString env.nowMs ++ "-" ++ env.randSuffix
    timestamp := env.nowMs
    event := event
    userId := jsOr (jsOptField cu "username") (.str "anonymous")
    userRole := jsOr (jsOptField cu "role") (.str "guest")
    userAgent := env.userAgent
    ip := "127.0.0.1"
    path := env.path
    data := data }

/-- Serialized form of an audit entry (field order of the object literal in
`logAudit`). -/
def entryToJson (e : AuditEntry) : Json :=
  .obj [("id", .str e.id), ("timestamp", .num e.timestamp), ("event", .str e.event),
    ("userId", e.userId), ("userRole", e.userRole), ("userAgent", .str e.userAgent),
    ("ip", .str e.ip), ("path", .str e.path), ("data", e.data)]

def decodeEntry (j : Json) : Option AuditEntry :=
  match j with
  | .obj kvs =>
    match kvs.lookup "id", kvs.lookup "timestamp", kvs.lookup "event", kvs.lookup "userId",
        kvs.lookup "userRole", kvs.lookup "userAgent", kvs.lookup "ip", kvs.lookup "path",
        kvs.lookup "data" with
    | some (.str id), some (.num ts), some (.str ev), some uid, some urole, some (.str ua),
        some (.str ip), some (.str p), some d =>
      if ts < 0 then none else some ⟨id, ts.toNat, ev, uid, urole, ua, ip, p, d⟩
    | _, _, _, _, _, _, _, _, _ => none
  | _ => none

def decodeEntries : List Json → Option (List AuditEntry)
  | [] => some []
  | j :: js =>
    match decodeEntry j, decodeEntries js with
    | some e, some es => some (e :: es)
    | _, _ => none

def decodeEntryList (j : Json) : Option (List AuditEntry) :=
  match j with
  | .arr l => decodeEntries l
  | _ => none

/-- Push followed by the cap check of `logAudit` (auth.js lines 240-243):
`slice(-1000)` keeps the most recent 1000 entries when the length exceeds
1000. -/
def pushCap (log : List AuditEntry) (e : AuditEntry) : List AuditEntry :=
  if (log ++ [e]).length > 1000 then (log ++ [e]).drop ((log ++ [e]).length - 1000)
  else log ++ [e]

/-- `logAudit(event, data)` as a state transition: build the entry, append
with the cap, persist the resulting sequence under `fw-audit-log`. -/
def logAudit (env : AuditEnv) (event : String) (data : Json) (s : AuthState) : AuthState :=
  let e := mkAuditEntry env s.currentUser event data
  let newLog := pushCap s.auditLog e
  { s with auditLog := newLog, storedAudit := some (.val (.arr (newLog.map entryToJson))) }

/-- Filter object passed to `getAuditLog`.  A field is `none` when absent;
present fields are JS values checked for truthiness before use. -/
structure AuditFilters where
  userId : Option Json := none
  event : Option Json := none
  startDate : Option Json := none
  endDate : Option Json := none

/-- The four sequential filter passes of `getAuditLog` (auth.js lines
251-260), each guarded by truthiness of the corresponding field.  An
unparseable date bound makes every `>=` / `<=` comparison false (NaN), which
filters everything out. -/
def applyFilters (f : AuditFilters) (logs : List AuditEntry) : List AuditEntry :=
  let l1 := match f.userId with
    | some v => if jsTruthy v then logs.filter (fun e => jsStrictEq e.userId v) else logs
    | none => logs
  let l2 := match f.event with
    | some v => if jsTruthy v then l1.filter (fun e => jsStrictEq (.str e.event) v) else l1
    | none => l1
  let l3 := match f.startDate with
    | some v =>
      if jsTruthy v then
        match jsDateMs v with
        | some d => l2.filter (fun e => (e.timestamp : Int) ≥ d)
        | none => l2.filter (fun _ => false)
      else l2
    | none => l2
  match f.endDate with
  | some v =>
    if jsTruthy v then
      match jsDateMs v with
      | some d => l3.filter (fun e => (e.timestamp : Int) ≤ d)
      | none => l3.filter (fun _ => false)
    else l3
  | none => l3

/-- Result of `getAuditLog(filters)`: a copy of the log, filtered, then
sorted newest-first by timestamp (stable, as `Array.prototype.sort`). -/
def getAuditLogRes (s : AuthState) (f : AuditFilters) : List AuditEntry :=
  (applyFilters f s.auditLog).mergeSort (fun a b => b.timestamp ≤ a.timestamp)

/-- `getAuditLog` as an operation on the component: it returns the computed
list and leaves the component state as it was (the source spreads
`this.auditLog` into a fresh array and sorts only the copy). -/
def getAuditLogOp (s : AuthState) (f : AuditFilters) : List AuditEntry × AuthState :=
  (getAuditLogRes s f, s)

/-- `clearSession()` (auth.js lines 316-319). -/
def clearSession (s : AuthState) : AuthState :=
  { s with storedAuth := none, currentUser := .null }

/-- `redirectToLogin(message)` (auth.js lines 321-325): records the return
location and the message; the navigation itself leaves the component. -/
def redirectToLogin (env : AuditEnv) (message : String) (s : AuthState) : AuthState :=
  { s with storedRedirect := some env.href, storedMessage := some message }

/-- `logout(reason)` (auth.js lines 310-314): audit the logout (the user is
still set while the entry is built), clear the session, redirect with the
default message. -/
def logout (env : AuditEnv) (reason : String) (s : AuthState) : AuthState :=
  redirectToLogin env "Please log in to continue"
    (clearSession (logAudit env "user_logout" (.obj [("reason", .str reason)]) s))

/-- The session object a `setSession` call builds. -/
def newSession (env : AuditEnv) (username role name : String) (twoFactor : Bool) : Session :=
  { username := username, role := role, name := name, timestamp := env.nowMs,
    sessionId := "fw-" ++ toString env.nowMs, twoFactor := twoFactor }

/-- `setSession({username, role, name, twoFactor})` (auth.js lines 78-90):
persist the new session, make it current, then audit `session_created`. -/
def setSession (env : AuditEnv) (username role name : String) (twoFactor : Bool)
    (s : AuthState) : AuthState :=
  let sess := newSession env username role name twoFactor
  logAudit env "session_created"
    (.obj [("userId", .str username), ("role", .str role), ("twoFactor", .bool twoFactor)])
    { s with
      storedAuth := some (.val (sessionToJson sess))
      currentUser := sessionToJson sess }

/-- Payload of the `session_loaded` audit entry: property reads off the raw
parsed value (fields that are `undefined` are dropped, as they are under
`JSON.stringify`). -/
def sessionLoadedData (j : Json) : Json :=
  mkObj [("userId", jsField j "username"), ("role", jsField j "role")]

/-- The age check of `loadSession`: `Date.now() - new Date(timestamp).getTime()
> 24*60*60*1000`, false when the timestamp is missing or unparseable (NaN
comparisons are false). -/
def sessionExpired (env : AuditEnv) (j : Json) : Bool :=
  match jsField j "timestamp" with
  | some tv =>
    match jsDateMs tv with
    | some t => decide ((env.nowMs : Int) - t > 24 * 60 * 60 * 1000)
    | none => false
  | none => false

/-- `loadSession()` (auth.js lines 92-110).  The guard
`if (!sessionData) return` returns early — clearing nothing — both when the
key is absent (`getItem` gives `null`) and when the stored string is empty
(the one falsy string).  A non-empty stored string that fails `JSON.parse`,
or parses to `null` (whose property access throws inside the `try`), lands
in the `catch` and clears the session.  Any other parsed value is assigned
to `this.currentUser` unvalidated, `session_loaded` is audited, and the
session is logged out when its timestamp is more than 24 hours old. -/
def loadSession (env : AuditEnv) (s : AuthState) : AuthState :=
  match s.storedAuth with
  | none => s
  | some .emptyStr => s
  | some .unparsable => clearSession s
  | some (.val j) =>
    match j with
    | .null => clearSession { s with currentUser := .null }
    | _ =>
      if sessionExpired env j then
        logout env "Session expired"
          (logAudit env "session_loaded" (sessionLoadedData j) { s with currentUser := j })
      else logAudit env "session_loaded" (sessionLoadedData j) { s with currentUser := j }

/-- `loadStoredAuditLog()` (auth.js lines 336-346): the parsed stored value,
or `[]` when the key is absent, the stored string is empty (the `if
(stored)` truthiness guard skips it), or parsing throws.  The source
performs no validation of the parsed value; stored values that are not
arrays of well-formed entries do not occur in states the component itself
persists and are treated as the empty log here. -/
def loadStoredAuditLog (stored : Option StoredVal) : List AuditEntry :=
  match stored with
  | some (.val j) => (decodeEntryList j).getD []
  | some .unparsable => []
  | some .emptyStr => []
  | none => []

/-- State after the `AuthManager` constructor and `init()`: the audit log is
loaded as-is from storage, then `loadSession` runs.  (`protectRoutes`,
`setupUI` and `startSessionTimer` mutate neither the session fields nor the
audit log.) -/
def initialState (env : AuditEnv) (storedAuth storedAudit : Option StoredVal) : AuthState :=
  loadSession env
    { currentUser := .null
      auditLog := loadStoredAuditLog storedAudit
      storedAuth := storedAuth
      storedAudit := storedAudit
      storedRedirect := none
      storedMessage := none }

def hexDigitChar (n : Nat) : Char :=
  if n < 10 then Char.ofNat ('0'.toNat + n) else Char.ofNat ('a'.toNat + (n - 10))

/-- Escape of one character inside a JSON string literal, as
`JSON.stringify` performs it. -/
def jsonEscapeChar (c : Char) : String :=
  if c = '"' then "\\\""
  else if c = '\\' then "\\\\"
  else if c = '\n' then "\\n"
  else if c = '\r' then "\\r"
  else if c = '\t' then "\\t"
  else if c = '\x08' then "\\b"
  else if c = '\x0c' then "\\f"
  else if c.toNat < 32 then "\\u00" ++ String.mk [hexDigitChar (c.toNat / 16), hexDigitChar (c.toNat % 16)]
  else String.singleton c

def jsonQuote (s : String) : String :=
  "\"" ++ String.join (s.data.map jsonEscapeChar) ++ "\""

mutual
/-- Compact `JSON.stringify` of a value (as used for the `Data` column of the
CSV export). -/
def jsonStringify : Json → String
  | .null => "null"
  | .bool b => if b then "true" else "false"
  | .num n => toString n
  | .str s => jsonQuote s
  | .arr l => "[" ++ joinWith "," (jsonStringifyArr l) ++ "]"
  | .obj kvs => "\x7b" ++ joinWith "," (jsonStringifyObj kvs) ++ "\x7d"

def jsonStringifyArr : List Json → List String
  | [] => []
  | j :: js => jsonStringify j :: jsonStringifyArr js

def jsonStringifyObj : List (String × Json) → List String
  | [] => []
  | kv :: kvs => (jsonQuote kv.1 ++ ":" ++ jsonStringify kv.2) :: jsonStringifyObj kvs
end

/-- The regex replace `String(cell).replace(/"/g, '""')` of the CSV export:
every double quote is doubled. -/
def csvEscapeChars : List Char → List Char
  | [] => []
  | c :: cs => if c = '"' then '"' :: '"' :: csvEscapeChars cs else c :: csvEscapeChars cs

/-- One CSV cell as the export builds it: the stringified value, quotes
doubled, wrapped in double quotes. -/
def csvEscapeCell (s : String) : String :=
  "\"" ++ String.mk (csvEscapeChars s.data) ++ "\""

def csvHeaderCells : List String :=
  ["Timestamp", "Event", "User ID", "User Role", "Path", "Data"]

/-- The raw cell values of one exported entry row, before CSV escaping:
each is the JS `String(...)` conversion of the field, with the payload
serialized by `JSON.stringify`. -/
def csvRowCells (e : AuditEntry) : List String :=
  [toString e.timestamp, e.event, jsToString e.userId, jsToString e.userRole, e.path,
    jsonStringify e.data]

def csvLineOf (cells : List String) : String :=
  joinWith "," (cells.map csvEscapeCell)

def csvHeaderLine : String := csvLineOf csvHeaderCells

/-- The CSV text the export produces: header line, then one line per entry,
joined with newlines. -/
def csvOfLogs (logs : List AuditEntry) : String :=
  joinWith "\n" (csvHeaderLine :: logs.map (fun e => csvLineOf (csvRowCells e)))

/-- Content of the file download an export triggers: the JSON blob is
modelled by its parsed value (`JSON.stringify(logs, null, 2)` parses back to
exactly the serialized array), the CSV blob by its text. -/
inductive ExportOutput where
  | jsonOut : Json → ExportOutput
  | csvOut : String → ExportOutput
deriving Repr

/-- `exportAuditLog(format)` (auth.js lines 264-286): snapshot the log via
`getAuditLog()`, download it in the requested format (no download for an
unknown format), then audit `audit_log_exported` with the format and the
snapshot's entry count. -/
def exportAuditLog (env : AuditEnv) (format : String) (s : AuthState) :
    Option ExportOutput × AuthState :=
  let logs := getAuditLogRes s {}
  let output : Option ExportOutput :=
    if format = "json" then some (.jsonOut (.arr (logs.map entryToJson)))
    else if format = "csv" then some (.csvOut (csvOfLogs logs))
    else none
  (output,
    logAudit env "audit_log_exported"
      (.obj [("format", .str format), ("entryCount", .num logs.length)]) s)

/-- One call into the component, for stating log invariants across all
operations. -/
inductive AuthOp where
  | logA (env : AuditEnv) (event : String) (data : Json)
  | queryA (f : AuditFilters)
  | exportA (env : AuditEnv) (format : String)
  | setS (env : AuditEnv) (username role name : String) (twoFactor : Bool)
  | loadS (env : AuditEnv)
  | logoutA (env : AuditEnv) (reason : String)
  | clearS

def applyOp : AuthOp → AuthState → AuthState
  | .logA env ev d, s => logAudit env ev d s
  | .queryA f, s => (getAuditLogOp s f).2
  | .exportA env fmt, s => (exportAuditLog env fmt s).2
  | .setS env u r n t, s => setSession env u r n t s
  | .loadS env, s => loadSession env s
  | .logoutA env reason, s => logout env reason s
  | .clearS, s => clearSession s

theorem getRole_no_colonStar {k : String} {r : Role} (h : getRole k = some r) :
    r.permissions.contains ":*" = false := by
  unfold getRole at h
  split_ifs at h <;> cases h <;> decide

theorem hasPermission_sessionToJson (sess : Session) (P : String) :
    hasPermission (sessionToJson sess) P =
      (match getRole sess.role with
      | none => false
      | some role =>
        if role.permissions.contains "*" then true
        else if role.permissions.contains P then true
        else if categoryOf P ≠ "" then role.permissions.contains (categoryOf P ++ ":*")
        else false) := rfl

/-- Claim C1: with an active session whose role names one of the six
registered roles `r`, `hasPermission P` is true exactly when `r`'s
permission list contains the universal wildcard, `P` itself, or the category
wildcard of `P`'s category (the part of `P` before the first colon, `P`
itself when there is none); with no active session, or a session whose role
is not registered, it is false for every `P`. -/
theorem C1_hasPermission_characterization :
    (∀ P : String, hasPermission .null P = false) ∧
    (∀ (sess : Session) (P : String), getRole sess.role = none →
      hasPermission (sessionToJson sess) P = false) ∧
    (∀ (sess : Session) (r : Role) (P : String), getRole sess.role = some r →
      hasPermission (sessionToJson sess) P =
        (r.permissions.contains "*" || r.permissions.contains P ||
          r.permissions.contains (categoryOf P ++ ":*"))) := by
  refine ⟨fun P => rfl, ?_, ?_⟩
  · intro sess P h
    rw [hasPermission_sessionToJson, h]
  · intro sess r P h
    have hns := getRole_no_colonStar h
    rw [hasPermission_sessionToJson, h]
    dsimp only
    cases h1 : r.permissions.contains "*" with
    | true => simp
    | false =>
      rw [Bool.false_or]
      cases h2 : r.permissions.contains P with
      | true => simp
      | false =>
        rw [Bool.false_or]
        by_cases h3 : categoryOf P = ""
        · rw [if_neg (not_not_intro h3), h3]
          have he : ("" ++ ":*" : String) = ":*" := rfl
          rw [he, hns]
          simp
        · rw [if_pos h3]
          simp

theorem C1_hasPermission_witness :
    getRole ("curator" : String) = some curatorRole ∧
    hasPermission (sessionToJson ⟨"alice", "curator", "Alice", 0, "fw-0", false⟩)
        "edit:metadata" =
      (curatorRole.permissions.contains "*" || curatorRole.permissions.contains "edit:metadata" ||
        curatorRole.permissions.contains (categoryOf "edit:metadata" ++ ":*")) :=
  ⟨rfl, C1_hasPermission_characterization.2.2 ⟨"alice", "curator", "Alice", 0, "fw-0", false⟩
    curatorRole "edit:metadata" rfl⟩

theorem pushCap_of_small {acc : List AuditEntry} {e : AuditEntry}
    (h : (acc ++ [e]).length ≤ 1000) : pushCap acc e = acc ++ [e] := by
  unfold pushCap
  rw [if_neg]
  omega

theorem foldl_pushCap_of_small :
    ∀ (es : List AuditEntry) (acc : List AuditEntry), acc.length + es.length ≤ 1000 →
      List.foldl pushCap acc es = acc ++ es := by
  intro es
  induction es with
  | nil => intro acc _; simp
  | cons e es ih =>
    intro acc h
    simp only [List.length_cons] at h
    have hlen : (acc ++ [e]).length ≤ 1000 := by
      simp only [List.length_append, List.length_cons, List.length_nil]
      omega
    have hnext : (acc ++ [e]).length + es.length ≤ 1000 := by
      simp only [List.length_append, List.length_cons, List.length_nil]
      omega
    rw [List.foldl_cons, pushCap_of_small hlen, ih (acc ++ [e]) hnext]
    simp

/-- A sequence of `logAudit` calls, each with its own ambient environment,
event name and payload. -/
def runLogs (calls : List (AuditEnv × String × Json)) (s : AuthState) : AuthState :=
  calls.foldl (fun st c => logAudit c.1 c.2.1 c.2.2 st) s

theorem logAudit_currentUser (env : AuditEnv) (ev : String) (d : Json) (s : AuthState) :
    (logAudit env ev d s).currentUser = s.currentUser := rfl

theorem runLogs_auditLog :
    ∀ (calls : List (AuditEnv × String × Json)) (s : AuthState),
      (runLogs calls s).auditLog =
        List.foldl pushCap s.auditLog
          (calls.map (fun c => mkAuditEntry c.1 s.currentUser c.2.1 c.2.2)) := by
  intro calls
  induction calls with
  | nil => intro s; rfl
  | cons c cs ih =>
    intro s
    show (runLogs cs (logAudit c.1 c.2.1 c.2.2 s)).auditLog = _
    rw [ih]
    rfl

/-- Claim C2: starting from an empty audit log, 1001 `logAudit` appends leave
exactly the entries of appends #2 through #1001, in insertion order: the
oldest entry is evicted and the log holds 1000 entries. -/
theorem C2_fifo_eviction (s : AuthState) (calls : List (AuditEnv × String × Json))
    (h0 : s.auditLog = []) (h1 : calls.length = 1001) :
    (runLogs calls s).auditLog =
      (calls.map (fun c => mkAuditEntry c.1 s.currentUser c.2.1 c.2.2)).drop 1 := by
  rw [runLogs_auditLog, h0]
  set es := calls.map (fun c => mkAuditEntry c.1 s.currentUser c.2.1 c.2.2) with hes
  have hlen : es.length = 1001 := by rw [hes, List.length_map, h1]
  rcases List.eq_nil_or_concat es with hnil | ⟨ys, z, hconcat⟩
  · rw [hnil] at hlen; simp at hlen
  · rw [List.concat_eq_append] at hconcat
    have hys : ys.length = 1000 := by
      rw [hconcat] at hlen; simp at hlen; omega
    rw [hconcat, List.foldl_append, foldl_pushCap_of_small ys [] (by simp [hys])]
    simp only [List.nil_append, List.foldl_cons, List.foldl_nil]
    unfold pushCap
    rw [if_pos (by simp [hys])]
    have hdrop : (ys ++ [z]).length - 1000 = 1 := by simp [hys]
    simp only [hdrop]

def env0 : AuditEnv :=
  { nowMs := 0, randSuffix := "r0", userAgent := "ua", path := "/", href := "h" }

def baseState : AuthState :=
  { currentUser := .null, auditLog := [], storedAuth := none, storedAudit := none,
    storedRedirect := none, storedMessage := none }

theorem C2_fifo_eviction_witness :
    baseState.auditLog = [] ∧
    (List.replicate 1001 (env0, "evt", Json.null)).length = 1001 ∧
    (runLogs (List.replicate 1001 (env0, "evt", Json.null)) baseState).auditLog =
      ((List.replicate 1001 (env0, "evt", Json.null)).map
        (fun c => mkAuditEntry c.1 baseState.currentUser c.2.1 c.2.2)).drop 1 :=
  ⟨rfl, by rw [List.length_replicate], C2_fifo_eviction baseState _ rfl (by rw [List.length_replicate])⟩

theorem decodeEntry_entryToJson (e : AuditEntry) : decodeEntry (entryToJson e) = some e := by
  show (if (e.timestamp : Int) < 0 then none
    else some ⟨e.id, (e.timestamp : Int).toNat, e.event, e.userId, e.userRole, e.userAgent,
      e.ip, e.path, e.data⟩ : Option AuditEntry) = some e
  rw [if_neg (by omega), Int.toNat_natCast]

theorem decodeEntries_replicate {j : Json} {e : AuditEntry} (h : decodeEntry j = some e) :
    ∀ n, decodeEntries (List.replicate n j) = some (List.replicate n e) := by
  intro n
  induction n with
  | zero => rfl
  | succ n ih => rw [List.replicate_succ, List.replicate_succ, decodeEntries, h, ih]

/-- An arbitrary but fixed audit entry used for concrete instances. -/
def e0 : AuditEntry :=
  { id := "audit-0-r0", timestamp := 0, event := "evt", userId := .str "anonymous",
    userRole := .str "guest", userAgent := "ua", ip := "127.0.0.1", path := "/",
    data := .obj [] }

/-- A persisted `fw-audit-log` value holding 1001 well-formed entries. -/
def overLongStored : Option StoredVal :=
  some (.val (.arr (List.replicate 1001 (entryToJson e0))))

/-- Claim C3 counterexample: initialization loads a persisted audit log of
1001 entries as-is — `loadStoredAuditLog` performs no truncation — so the
resulting state has 1001 > 1000 entries, violating the claimed bound. -/
theorem initialState_none_auth_auditLog (env : AuditEnv) (j : Json) :
    (initialState env none (some (.val j))).auditLog = (decodeEntryList j).getD [] := rfl

theorem decodeEntryList_arr (l : List Json) : decodeEntryList (.arr l) = decodeEntries l := rfl

theorem C3_init_overflow_counterexample :
    (initialState env0 none overLongStored).auditLog.length = 1001 ∧
    ¬((initialState env0 none overLongStored).auditLog.length ≤ 1000) := by
  have hdec : decodeEntries (List.replicate 1001 (entryToJson e0)) =
      some (List.replicate 1001 e0) :=
    decodeEntries_replicate (decodeEntry_entryToJson e0) 1001
  have hover : overLongStored = some (.val (.arr (List.replicate 1001 (entryToJson e0)))) :=
    rfl
  rw [hover, initialState_none_auth_auditLog, decodeEntryList_arr, hdec, Option.getD_some,
    List.length_replicate]
  omega

theorem pushCap_length {l : List AuditEntry} (e : AuditEntry) (h : l.length ≤ 1000) :
    (pushCap l e).length ≤ 1000 := by
  unfold pushCap
  split_ifs with h1
  · rw [List.length_drop]; omega
  · simp only [List.length_append, List.length_cons, List.length_nil] at h1 ⊢
    omega

theorem loadSession_auditLog_len (env : AuditEnv) (s : AuthState)
    (h : s.auditLog.length ≤ 1000) : (loadSession env s).auditLog.length ≤ 1000 := by
  unfold loadSession
  split
  · exact h
  · exact h
  · exact h
  · split
    · exact h
    · split_ifs with hexp
      · exact pushCap_length _ (pushCap_length _ h)
      · exact pushCap_length _ h

/-- Claim C3, amended: every component operation preserves the 1000-entry
bound on the audit log, and the cap truncation removes exactly the oldest
entries (the appended list with a prefix dropped).  Initialization itself
does not truncate, so a persisted log longer than 1000 entries yields an
initial state exceeding the bound (see the counterexample). -/
theorem C3_cap_preserved_amended :
    (∀ (op : AuthOp) (s : AuthState), s.auditLog.length ≤ 1000 →
      (applyOp op s).auditLog.length ≤ 1000) ∧
    (∀ (l : List AuditEntry) (e : AuditEntry),
      pushCap l e = (l ++ [e]).drop ((l ++ [e]).length - 1000)) := by
  constructor
  · intro op s h
    cases op with
    | logA env ev d => exact pushCap_length _ h
    | queryA f => exact h
    | exportA env fmt => exact pushCap_length _ h
    | setS env u r n t => exact pushCap_length _ h
    | loadS env => exact loadSession_auditLog_len env s h
    | logoutA env reason => exact pushCap_length _ h
    | clearS => exact h
  · intro l e
    unfold pushCap
    split_ifs with h1
    · rfl
    · have hz : (l ++ [e]).length - 1000 = 0 := by omega
      rw [hz, List.drop_zero]

theorem C3_cap_preserved_witness :
    baseState.auditLog.length ≤ 1000 ∧
    (applyOp (.logA env0 "evt" Json.null) baseState).auditLog.length ≤ 1000 :=
  ⟨by decide, C3_cap_preserved_amended.1 (.logA env0 "evt" Json.null) baseState (by decide)⟩

/-- The `session_loaded` entry recorded while loading persisted session
`sess`. -/
def loadedEntryOf (env : AuditEnv) (sess : Session) : AuditEntry :=
  mkAuditEntry env (sessionToJson sess) "session_loaded" (sessionLoadedData (sessionToJson sess))

/-- The `user_logout` entry recorded when a loaded session expires. -/
def logoutEntryOf (env : AuditEnv) (sess : Session) : AuditEntry :=
  mkAuditEntry env (sessionToJson sess) "user_logout"
    (.obj [("reason", .str "Session expired")])

theorem loadSession_expired_eq (env : AuditEnv) (s : AuthState) (sess : Session)
    (h : (env.nowMs : Int) - sess.timestamp > 24 * 60 * 60 * 1000) :
    loadSession env { s with storedAuth := some (.val (sessionToJson sess)) } =
      logout env "Session expired"
        (logAudit env "session_loaded" (sessionLoadedData (sessionToJson sess))
          { s with storedAuth := some (.val (sessionToJson sess))
                   currentUser := sessionToJson sess }) := by
  unfold loadSession
  dsimp only
  rw [if_pos (show sessionExpired env (sessionToJson sess) = true from decide_eq_true h)]
  simp only [sessionToJson]

/-- Claim C4: loading a persisted session whose timestamp is more than 24
hours before the current time invalidates it: afterwards `currentUser` is
null and the persisted session key is removed, and a `user_logout` audit
entry whose payload reason is "Session expired" has been appended (after the
`session_loaded` entry). -/
theorem C4_session_expiry (env : AuditEnv) (s : AuthState) (sess : Session)
    (h : (env.nowMs : Int) - sess.timestamp > 24 * 60 * 60 * 1000) :
    (loadSession env { s with storedAuth := some (.val (sessionToJson sess)) }).currentUser
        = Json.null ∧
    (loadSession env { s with storedAuth := some (.val (sessionToJson sess)) }).storedAuth
        = none ∧
    (loadSession env { s with storedAuth := some (.val (sessionToJson sess)) }).auditLog
        = pushCap (pushCap s.auditLog (loadedEntryOf env sess)) (logoutEntryOf env sess) ∧
    (logoutEntryOf env sess).event = "user_logout" ∧
    (logoutEntryOf env sess).data = Json.obj [("reason", Json.str "Session expired")] := by
  rw [loadSession_expired_eq env s sess h]
  exact ⟨rfl, rfl, rfl, rfl, rfl⟩

def sessA : Session := ⟨"alice", "curator", "Alice", 0, "fw-0", false⟩

def env25h : AuditEnv :=
  { nowMs := 25 * 60 * 60 * 1000, randSuffix := "r1", userAgent := "ua", path := "/",
    href := "h" }

theorem C4_session_expiry_witness :
    ((env25h.nowMs : Int) - sessA.timestamp > 24 * 60 * 60 * 1000) ∧
    ((loadSession env25h
        { baseState with storedAuth := some (.val (sessionToJson sessA)) }).currentUser
        = Json.null ∧
    (loadSession env25h
        { baseState with storedAuth := some (.val (sessionToJson sessA)) }).storedAuth
        = none ∧
    (loadSession env25h
        { baseState with storedAuth := some (.val (sessionToJson sessA)) }).auditLog
        = pushCap (pushCap baseState.auditLog (loadedEntryOf env25h sessA))
            (logoutEntryOf env25h sessA) ∧
    (logoutEntryOf env25h sessA).event = "user_logout" ∧
    (logoutEntryOf env25h sessA).data = Json.obj [("reason", Json.str "Session expired")]) :=
  ⟨by decide, C4_session_expiry env25h baseState sessA (by decide)⟩

def digitVal (c : Char) : Nat := c.toNat - '0'.toNat

theorem digitVal_digitChar (d : Nat) (h : d < 10) : digitVal (Nat.digitChar d) = d := by
  interval_cases d <;> rfl

/-- Reference decimal rendering of a natural number, big-endian. -/
def decRep (n : Nat) : List Char :=
  if n = 0 then ['0'] else (Nat.digits 10 n).reverse.map Nat.digitChar

theorem decRep_small {n : Nat} (h : n < 10) : decRep n = [Nat.digitChar (n % 10)] := by
  unfold decRep
  by_cases h0 : n = 0
  · subst h0; rfl
  · rw [if_neg h0, Nat.digits_def' (by norm_num) (Nat.pos_of_ne_zero h0)]
    rw [Nat.mod_eq_of_lt h, Nat.div_eq_of_lt h]
    simp

theorem decRep_step {n : Nat} (h : n / 10 ≠ 0) :
    decRep n = decRep (n / 10) ++ [Nat.digitChar (n % 10)] := by
  have hn : n ≠ 0 := by
    intro h0; subst h0; simp at h
  unfold decRep
  rw [if_neg hn, if_neg h, Nat.digits_def' (by norm_num) (Nat.pos_of_ne_zero hn)]
  simp

theorem toDigitsCore_decRep :
    ∀ (f n : Nat) (acc : List Char), n < 10 ^ (f + 1) →
      Nat.toDigitsCore 10 (f + 1) n acc = decRep n ++ acc := by
  intro f
  induction f with
  | zero =>
    intro n acc h
    rw [pow_one] at h
    show (if n / 10 = 0 then Nat.digitChar (n % 10) :: acc
      else Nat.toDigitsCore 10 0 (n / 10) (Nat.digitChar (n % 10) :: acc)) = _
    rw [if_pos (Nat.div_eq_of_lt h), decRep_small h]
    rfl
  | succ f ih =>
    intro n acc h
    show (if n / 10 = 0 then Nat.digitChar (n % 10) :: acc
      else Nat.toDigitsCore 10 (f + 1) (n / 10) (Nat.digitChar (n % 10) :: acc)) = _
    by_cases hz : n / 10 = 0
    · have hlt : n < 10 := (Nat.div_eq_zero_iff (by norm_num)).mp hz
      rw [if_pos hz, decRep_small hlt]
      rfl
    · have hdiv : n / 10 < 10 ^ (f + 1) := by
        rw [Nat.div_lt_iff_lt_mul (by norm_num : (0:ℕ) < 10)]
        calc n < 10 ^ (f + 1 + 1) := h
        _ = 10 ^ (f + 1) * 10 := by ring
      rw [if_neg hz, ih (n / 10) (Nat.digitChar (n % 10) :: acc) hdiv, decRep_step hz]
      simp

theorem toDigits_decRep (n : Nat) : Nat.toDigits 10 n = decRep n := by
  have h1 : n < 10 ^ n := Nat.lt_pow_self (by norm_num) n
  have h2 : n < 10 ^ (n + 1) :=
    lt_of_lt_of_le h1 (Nat.pow_le_pow_right (by norm_num) (Nat.le_succ n))
  have := toDigitsCore_decRep n n [] h2
  unfold Nat.toDigits
  rw [this, List.append_nil]

theorem decRep_digitVal {n : Nat} (h : n ≠ 0) :
    (decRep n).map digitVal = (Nat.digits 10 n).reverse := by
  unfold decRep
  rw [if_neg h, List.map_map]
  have : ∀ d ∈ (Nat.digits 10 n).reverse, (digitVal ∘ Nat.digitChar) d = id d := by
    intro d hd
    rw [List.mem_reverse] at hd
    exact digitVal_digitChar d (Nat.digits_lt_base (by norm_num) hd)
  rw [List.map_congr_left this, List.map_id]

theorem decRep_inj {a b : Nat} (h : decRep a = decRep b) : a = b := by
  by_cases ha : a = 0 <;> by_cases hb : b = 0
  · rw [ha, hb]
  · exfalso
    have hda := congrArg (List.map digitVal) h
    rw [decRep_digitVal hb] at hda
    rw [ha] at hda
    have hrev : (Nat.digits 10 b).reverse = [0] := by
      rw [← hda]; rfl
    have hdig : Nat.digits 10 b = [0] := by
      have := congrArg List.reverse hrev
      simpa using this
    have : b = 0 := by
      have hob := Nat.ofDigits_digits 10 b
      rw [hdig] at hob
      simpa using hob.symm
    exact hb this
  · exfalso
    have hda := congrArg (List.map digitVal) h
    rw [decRep_digitVal ha] at hda
    rw [hb] at hda
    have hrev : (Nat.digits 10 a).reverse = [0] := by
      rw [hda]; rfl
    have hdig : Nat.digits 10 a = [0] := by
      have := congrArg List.reverse hrev
      simpa using this
    have : a = 0 := by
      have hoa := Nat.ofDigits_digits 10 a
      rw [hdig] at hoa
      simpa using hoa.symm
    exact ha this
  · have hda := congrArg (List.map digitVal) h
    rw [decRep_digitVal ha, decRep_digitVal hb] at hda
    have hdig : Nat.digits 10 a = Nat.digits 10 b := by
      have := congrArg List.reverse hda
      simpa using this
    have hoa := Nat.ofDigits_digits 10 a
    have hob := Nat.ofDigits_digits 10 b
    rw [hdig] at hoa
    rw [hob] at hoa
    exact hoa.symm

theorem natRepr_inj {a b : Nat} (h : Nat.repr a = Nat.repr b) : a = b := by
  unfold Nat.repr at h
  have hdata := congrArg String.data h
  simp only [List.asString] at hdata
  rw [toDigits_decRep, toDigits_decRep] at hdata
  exact decRep_inj hdata

/-- Claim C5 counterexample: `sessionId` is `'fw-' + Date.now()`, so two
distinct `setSession` calls during the same millisecond build sessions with
identical ids. -/
theorem C5_sessionId_collision_counterexample :
    (newSession env0 "alice" "curator" "Alice" false).sessionId =
      (newSession env0 "bob" "board" "Bob" false).sessionId ∧
    (newSession env0 "alice" "curator" "Alice" false).username ≠
      (newSession env0 "bob" "board" "Bob" false).username ∧
    (setSession env0 "alice" "curator" "Alice" false baseState).currentUser =
      sessionToJson (newSession env0 "alice" "curator" "Alice" false) :=
  ⟨rfl, by decide, rfl⟩

/-- Claim C5, amended: sessions created by `setSession` calls at distinct
clock milliseconds have distinct `sessionId`s ( `'fw-' + Date.now()` with
decimal rendering injective); calls within the same millisecond share one
id. -/
theorem C5_sessionId_unique_amended (env1 env2 : AuditEnv) (u1 r1 n1 : String) (t1 : Bool)
    (u2 r2 n2 : String) (t2 : Bool) (h : env1.nowMs ≠ env2.nowMs) :
    (newSession env1 u1 r1 n1 t1).sessionId ≠ (newSession env2 u2 r2 n2 t2).sessionId := by
  intro he
  apply h
  have hdata := congrArg String.data he
  rw [show (newSession env1 u1 r1 n1 t1).sessionId = "fw-" ++ toString env1.nowMs from rfl,
    show (newSession env2 u2 r2 n2 t2).sessionId = "fw-" ++ toString env2.nowMs from rfl,
    String.data_append, String.data_append] at hdata
  have hrest := List.append_cancel_left hdata
  have hstr : Nat.repr env1.nowMs = Nat.repr env2.nowMs := by
    apply String.ext
    exact hrest
  exact natRepr_inj hstr

def env1ms : AuditEnv :=
  { nowMs := 1, randSuffix := "r2", userAgent := "ua", path := "/", href := "h" }

theorem C5_sessionId_unique_witness :
    env0.nowMs ≠ env1ms.nowMs ∧
    (newSession env0 "alice" "curator" "Alice" false).sessionId ≠
      (newSession env1ms "alice" "curator" "Alice" false).sessionId :=
  ⟨by decide, C5_sessionId_unique_amended env0 env1ms "alice" "curator" "Alice" false
    "alice" "curator" "Alice" false (by decide)⟩

theorem decodeEntries_map_entryToJson :
    ∀ l : List AuditEntry, decodeEntries (l.map entryToJson) = some l := by
  intro l
  induction l with
  | nil => rfl
  | cons e es ih => simp [decodeEntries, decodeEntry_entryToJson, ih]

theorem applyFilters_none (logs : List AuditEntry) : applyFilters {} logs = logs := rfl

theorem getAuditLogRes_noFilters_length (s : AuthState) :
    (getAuditLogRes s {}).length = s.auditLog.length := by
  unfold getAuditLogRes
  rw [applyFilters_none, List.length_mergeSort]

/-- Claim C6: the JSON export's output is exactly the serialization of the
pre-export `getAuditLog({})` snapshot — decoding it gives back that snapshot
— and the single `audit_log_exported` entry, whose payload records the
format and the pre-export entry count, is appended to the log after the
snapshot is taken, so it is absent from the output; pre-existing entries are
not modified (below the cap the new log is the old log plus the one entry). -/
theorem C6_export_json_roundtrip (env : AuditEnv) (s : AuthState) :
    (exportAuditLog env "json" s).1 =
      some (.jsonOut (.arr ((getAuditLogRes s {}).map entryToJson))) ∧
    decodeEntryList (.arr ((getAuditLogRes s {}).map entryToJson)) =
      some (getAuditLogRes s {}) ∧
    (exportAuditLog env "json" s).2.auditLog =
      pushCap s.auditLog (mkAuditEntry env s.currentUser "audit_log_exported"
        (.obj [("format", .str "json"),
          ("entryCount", .num (getAuditLogRes s {}).length)])) ∧
    (getAuditLogRes s {}).length = s.auditLog.length ∧
    (s.auditLog.length < 1000 →
      (exportAuditLog env "json" s).2.auditLog =
        s.auditLog ++ [mkAuditEntry env s.currentUser "audit_log_exported"
          (.obj [("format", .str "json"),
            ("entryCount", .num (getAuditLogRes s {}).length)])]) := by
  refine ⟨rfl, ?_, rfl, getAuditLogRes_noFilters_length s, ?_⟩
  · rw [decodeEntryList_arr]
    exact decodeEntries_map_entryToJson _
  · intro h
    show pushCap s.auditLog _ = _
    apply pushCap_of_small
    simp only [List.length_append, List.length_cons, List.length_nil]
    omega

theorem C6_export_json_witness :
    baseState.auditLog.length < 1000 ∧
    (exportAuditLog env0 "json" baseState).2.auditLog =
      baseState.auditLog ++ [mkAuditEntry env0 baseState.currentUser "audit_log_exported"
        (.obj [("format", .str "json"),
          ("entryCount", .num (getAuditLogRes baseState {}).length)])] :=
  ⟨by decide, (C6_export_json_roundtrip env0 baseState).2.2.2.2 (by decide)⟩

/-- Claim C7: `getAuditLog` does not mutate the component — the state after
a query is the state before it, for every filter combination — and two
`getAuditLog({})` calls with no intervening append return identical
results. -/
theorem C7_query_pure_idempotent (s : AuthState) (f : AuditFilters) :
    (getAuditLogOp s f).2 = s ∧
    (getAuditLogOp s f).2.auditLog = s.auditLog ∧
    (getAuditLogOp ((getAuditLogOp s {}).2) {}).1 = (getAuditLogOp s {}).1 :=
  ⟨rfl, rfl, rfl⟩

/-- Strict well-formedness fails for the empty object: it carries none of a
session's fields. -/
def junkStored : AuthState := { baseState with storedAuth := some (.val (.obj [])) }

/-- Claim C8 counterexample: a persisted value that parses to `{}` — valid
JSON but not a valid serialized session — is not recovered: `loadSession`
assigns it as the active user (`currentUser` is not null) and leaves the
stored key in place (its missing timestamp makes the expiry check a NaN
comparison, which is false). -/
theorem C8_corrupt_session_counterexample :
    decodeSession (.obj []) = none ∧
    (loadSession env0 junkStored).currentUser = Json.obj [] ∧
    (loadSession env0 junkStored).currentUser ≠ Json.null ∧
    (loadSession env0 junkStored).storedAuth = some (.val (.obj [])) := by
  refine ⟨rfl, rfl, ?_, rfl⟩
  intro h
  have h2 : Json.obj [] = Json.null := by
    rw [← h]
    rfl
  exact Json.noConfusion h2

theorem loadSession_expired_obj_eq (env : AuditEnv) (s : AuthState)
    (kvs : List (String × Json)) (h : sessionExpired env (.obj kvs) = true) :
    loadSession env { s with storedAuth := some (.val (.obj kvs)) } =
      logout env "Session expired"
        (logAudit env "session_loaded" (sessionLoadedData (.obj kvs))
          { s with storedAuth := some (.val (.obj kvs))
                   currentUser := .obj kvs }) := by
  unfold loadSession
  dsimp only
  rw [if_pos h]

/-- Claim C8, amended: `loadSession` totalizes every corrupt input but
recovers only some of them.  A non-empty stored string that fails JSON
parsing, or parses to `null`, lands in the `catch`: the stored value is
cleared and `currentUser` is null.  A stored empty string fails the falsy
guard's truthiness test and is returned over before the `try`: nothing is
cleared and the state is unchanged (no session becomes active).  A parsed
non-null value that is not a valid session is assigned to `currentUser`
unvalidated; its stored value is cleared — with `currentUser` nulled — only
when its `timestamp` field parses to an instant more than 24 hours old, in
which case the expiry logout runs (fourth conjunct); otherwise it stays, as
the counterexample shows for `\x7b\x7d`. -/
theorem C8_corrupt_recovery_amended :
    (∀ (env : AuditEnv) (s : AuthState),
      (loadSession env { s with storedAuth := some .unparsable }).currentUser = Json.null ∧
      (loadSession env { s with storedAuth := some .unparsable }).storedAuth = none) ∧
    (∀ (env : AuditEnv) (s : AuthState),
      (loadSession env { s with storedAuth := some (.val .null) }).currentUser = Json.null ∧
      (loadSession env { s with storedAuth := some (.val .null) }).storedAuth = none) ∧
    (∀ (env : AuditEnv) (s : AuthState),
      loadSession env { s with storedAuth := some .emptyStr } =
        { s with storedAuth := some .emptyStr }) ∧
    (∀ (env : AuditEnv) (s : AuthState) (t : Int),
      (env.nowMs : Int) - t > 24 * 60 * 60 * 1000 →
      decodeSession (.obj [("timestamp", .num t)]) = none ∧
      (loadSession env
          { s with storedAuth := some (.val (.obj [("timestamp", .num t)])) }).currentUser
        = Json.null ∧
      (loadSession env
          { s with storedAuth := some (.val (.obj [("timestamp", .num t)])) }).storedAuth
        = none) := by
  refine ⟨fun env s => ⟨rfl, rfl⟩, fun env s => ⟨rfl, rfl⟩, fun env s => rfl, ?_⟩
  intro env s t h
  have hexp : sessionExpired env (.obj [("timestamp", .num t)]) = true := decide_eq_true h
  rw [loadSession_expired_obj_eq env s [("timestamp", .num t)] hexp]
  exact ⟨rfl, rfl, rfl⟩

theorem C8_corrupt_recovery_witness :
    ((env25h.nowMs : Int) - 0 > 24 * 60 * 60 * 1000) ∧
    (decodeSession (.obj [("timestamp", .num 0)]) = none ∧
      (loadSession env25h
          { baseState with storedAuth := some (.val (.obj [("timestamp", .num 0)])) }).currentUser
        = Json.null ∧
      (loadSession env25h
          { baseState with storedAuth := some (.val (.obj [("timestamp", .num 0)])) }).storedAuth
        = none) :=
  ⟨by decide, C8_corrupt_recovery_amended.2.2.2 env25h baseState 0 (by decide)⟩

/-- Parser for the interior of a standard CSV quoted cell: consumes
characters up to the closing quote, reading a doubled quote as one literal
quote; returns the cell content and the remainder after the closing
quote. -/
def parseInQuotes : List Char → Option (List Char × List Char)
  | [] => none
  | c :: rest =>
    if c = '"' then
      match rest with
      | [] => some ([], [])
      | r2 :: rest2 =>
        if r2 = '"' then (parseInQuotes rest2).map (fun p => ('"' :: p.1, p.2))
        else some ([], r2 :: rest2)
    else (parseInQuotes rest).map (fun p => (c :: p.1, p.2))

/-- Fuelled parser for a CSV row of fully quoted cells separated by commas. -/
def parseCellsAux : Nat → List Char → Option (List (List Char))
  | 0, _ => none
  | f + 1, l =>
    match l with
    | [] => none
    | c :: rest =>
      if c = '"' then
        match parseInQuotes rest with
        | none => none
        | some (cell, rem) =>
          match rem with
          | [] => some [cell]
          | r :: rest2 =>
            if r = ',' then (parseCellsAux f rest2).map (fun cs => cell :: cs)
            else none
      else none

/-- Standard CSV parse of one row whose cells are all quoted, recovering the
unescaped cell values. -/
def parseCSVRow (s : String) : Option (List String) :=
  (parseCellsAux (s.data.length + 1) s.data).map (fun cs => cs.map String.mk)

theorem parseInQuotes_escape :
    ∀ (cs rest : List Char), rest.head? ≠ some '"' →
      parseInQuotes (csvEscapeChars cs ++ '"' :: rest) = some (cs, rest) := by
  intro cs
  induction cs with
  | nil =>
    intro rest h
    show parseInQuotes ('"' :: rest) = some ([], rest)
    unfold parseInQuotes
    rw [if_pos rfl]
    cases rest with
    | nil => rfl
    | cons r2 rest2 =>
      have hr : r2 ≠ '"' := by
        intro he; apply h; rw [he]; rfl
      simp only [if_neg hr]
  | cons c cs ih =>
    intro rest h
    by_cases hc : c = '"'
    · subst hc
      show parseInQuotes ('"' :: '"' :: (csvEscapeChars cs ++ '"' :: rest)) = _
      unfold parseInQuotes
      rw [if_pos rfl]
      simp only [if_pos rfl]
      rw [ih rest h]
      rfl
    · have hesc : csvEscapeChars (c :: cs) = c :: csvEscapeChars cs := by
        rw [csvEscapeChars, if_neg hc]
      rw [hesc, List.cons_append]
      unfold parseInQuotes
      rw [if_neg hc, ih rest h]
      rfl

/-- Character-level form of a row of escaped quoted cells. -/
def joinEsc : List (List Char) → List Char
  | [] => []
  | [c] => '"' :: (csvEscapeChars c ++ ['"'])
  | c :: cs => '"' :: (csvEscapeChars c ++ '"' :: ',' :: joinEsc cs)

theorem parseCellsAux_joinEsc :
    ∀ (cells : List (List Char)) (f : Nat), cells ≠ [] → cells.length ≤ f →
      parseCellsAux f (joinEsc cells) = some cells := by
  intro cells
  induction cells with
  | nil => intro f h _; exact absurd rfl h
  | cons c cs ih =>
    intro f _ hlen
    cases f with
    | zero => simp at hlen
    | succ f =>
      cases cs with
      | nil =>
        show parseCellsAux (f + 1) ('"' :: (csvEscapeChars c ++ ['"'])) = some [c]
        unfold parseCellsAux
        dsimp only
        rw [if_pos rfl]
        have hq : parseInQuotes (csvEscapeChars c ++ '"' :: ([] : List Char)) =
            some (c, []) := parseInQuotes_escape c [] (by simp)
        rw [hq]
      | cons c2 cs2 =>
        show parseCellsAux (f + 1)
          ('"' :: (csvEscapeChars c ++ '"' :: ',' :: joinEsc (c2 :: cs2))) = _
        unfold parseCellsAux
        dsimp only
        rw [if_pos rfl]
        have hq : parseInQuotes (csvEscapeChars c ++ '"' :: ',' :: joinEsc (c2 :: cs2)) =
            some (c, ',' :: joinEsc (c2 :: cs2)) :=
          parseInQuotes_escape c _ (by simp)
        rw [hq]
        dsimp only
        rw [if_pos rfl]
        have hrec := ih f (by simp) (by simp at hlen ⊢; omega)
        rw [hrec]
        rfl

theorem data_csvEscapeCell (s : String) :
    (csvEscapeCell s).data = '"' :: (csvEscapeChars s.data ++ ['"']) := by
  show (("\"" ++ String.mk (csvEscapeChars s.data)) ++ "\"").data = _
  rw [String.data_append, String.data_append]
  rfl

theorem data_csvLineOf :
    ∀ cells : List String, (csvLineOf cells).data = joinEsc (cells.map String.data) := by
  intro cells
  induction cells with
  | nil => rfl
  | cons c cs ih =>
    cases cs with
    | nil =>
      show (csvEscapeCell c).data = _
      rw [data_csvEscapeCell]
      rfl
    | cons c2 cs2 =>
      show ((csvEscapeCell c ++ ",") ++ joinWith "," ((c2 :: cs2).map csvEscapeCell)).data = _
      rw [String.data_append, String.data_append, data_csvEscapeCell]
      rw [show joinWith "," ((c2 :: cs2).map csvEscapeCell) = csvLineOf (c2 :: cs2) from rfl]
      rw [ih]
      show _ = '"' :: (csvEscapeChars c.data ++ '"' :: ',' :: joinEsc ((c2 :: cs2).map String.data))
      simp

theorem joinEsc_length_ge : ∀ cells : List (List Char), cells.length ≤ (joinEsc cells).length := by
  intro cells
  induction cells with
  | nil => simp [joinEsc]
  | cons c cs ih =>
    cases cs with
    | nil => simp [joinEsc]
    | cons c2 cs2 =>
      show (c :: c2 :: cs2).length ≤
        ('"' :: (csvEscapeChars c ++ '"' :: ',' :: joinEsc (c2 :: cs2))).length
      simp at ih ⊢
      omega

/-- A row built by the export's escaping — each cell quoted with interior
quotes doubled, cells joined by commas — parses back, under standard CSV
rules, to exactly the original cell values. -/
theorem parseCSVRow_csvLineOf (cells : List String) (h : cells ≠ []) :
    parseCSVRow (csvLineOf cells) = some cells := by
  unfold parseCSVRow
  rw [data_csvLineOf]
  have hne : cells.map String.data ≠ [] := by
    intro hh
    exact h (List.map_eq_nil_iff.mp hh)
  have hlen : (cells.map String.data).length ≤ (joinEsc (cells.map String.data)).length + 1 := by
    have := joinEsc_length_ge (cells.map String.data)
    omega
  rw [parseCellsAux_joinEsc (cells.map String.data) _ hne hlen]
  show some ((cells.map String.data).map (fun cs => String.mk cs)) = some cells
  rw [List.map_map]
  have hmk : ∀ x ∈ cells, ((fun cs => String.mk cs) ∘ String.data) x = id x := fun x _ => rfl
  rw [List.map_congr_left hmk, List.map_id]

/-- Claim C9: the CSV export consists of the header row followed by one row
per entry of the `getAuditLog({})` snapshot; the header parses to the six
column names `Timestamp, Event, User ID, User Role, Path, Data`; every
entry row — each field quoted with embedded double quotes doubled, the Data
column holding the `JSON.stringify` of the payload — parses back under
standard CSV rules to exactly the entry's six stringified fields, for any
payload, including ones containing commas or double quotes. -/
theorem C9_export_csv_escaping (env : AuditEnv) (s : AuthState) :
    (exportAuditLog env "csv" s).1 =
      some (.csvOut (joinWith "\n"
        (csvHeaderLine :: (getAuditLogRes s {}).map (fun e => csvLineOf (csvRowCells e))))) ∧
    parseCSVRow csvHeaderLine =
      some ["Timestamp", "Event", "User ID", "User Role", "Path", "Data"] ∧
    (∀ e : AuditEntry, parseCSVRow (csvLineOf (csvRowCells e)) = some (csvRowCells e)) ∧
    (∀ e : AuditEntry, (csvRowCells e).getLast? = some (jsonStringify e.data)) := by
  refine ⟨rfl, ?_, ?_, fun e => rfl⟩
  · exact parseCSVRow_csvLineOf csvHeaderCells (by decide)
  · intro e
    exact parseCSVRow_csvLineOf (csvRowCells e) (List.cons_ne_nil _ _)

theorem pushCap_length_eq (l : List AuditEntry) (e : AuditEntry) :
    (pushCap l e).length = min (l.length + 1) 1000 := by
  unfold pushCap
  split_ifs with h
  · rw [List.length_drop]
    simp only [List.length_append, List.length_cons, List.length_nil] at h ⊢
    omega
  · simp only [List.length_append, List.length_cons, List.length_nil] at h ⊢
    omega

/-- A state whose audit log sits exactly at the 1000-entry cap. -/
def fullState : AuthState := { baseState with auditLog := List.replicate 1000 e0 }

theorem logAudit_auditLog (env : AuditEnv) (ev : String) (d : Json) (s : AuthState) :
    (logAudit env ev d s).auditLog = pushCap s.auditLog (mkAuditEntry env s.currentUser ev d) :=
  rfl

theorem exportAuditLog_unknown (env : AuditEnv) (s : AuthState) (fmt : String)
    (h1 : fmt ≠ "json") (h2 : fmt ≠ "csv") :
    exportAuditLog env fmt s =
      (none, logAudit env "audit_log_exported"
        (.obj [("format", .str fmt),
          ("entryCount", .num (getAuditLogRes s {}).length)]) s) := by
  unfold exportAuditLog
  dsimp only
  rw [if_neg h1, if_neg h2]

/-- Claim C10 counterexample: with the log at its 1000-entry cap, an export
in an unknown format produces no output and still appends its
`audit_log_exported` entry, but the cap evicts the oldest entry, so the log
does not grow by one: its length stays 1000. -/
theorem C10_full_log_counterexample :
    (exportAuditLog env0 "xml" fullState).1 = none ∧
    fullState.auditLog.length = 1000 ∧
    (exportAuditLog env0 "xml" fullState).2.auditLog.length = 1000 := by
  have hrep : fullState.auditLog = List.replicate 1000 e0 := rfl
  have hu := exportAuditLog_unknown env0 fullState "xml" (by decide) (by decide)
  refine ⟨?_, ?_, ?_⟩
  · rw [hu]
  · rw [hrep, List.length_replicate]
  · rw [hu]
    show (logAudit env0 "audit_log_exported" _ fullState).auditLog.length = 1000
    rw [logAudit_auditLog, pushCap_length_eq, hrep, List.length_replicate]
    omega

/-- Claim C10, amended: for a format outside json and csv the export
produces no output, yet still appends exactly one `audit_log_exported`
entry whose payload records that format string and the pre-call entry
count; below the 1000-entry cap this grows the log by one entry, while at
the cap the oldest entry is evicted and the length stays 1000. -/
theorem C10_unknown_format_amended (env : AuditEnv) (s : AuthState) (fmt : String)
    (h1 : fmt ≠ "json") (h2 : fmt ≠ "csv") :
    (exportAuditLog env fmt s).1 = none ∧
    (exportAuditLog env fmt s).2.auditLog =
      pushCap s.auditLog (mkAuditEntry env s.currentUser "audit_log_exported"
        (.obj [("format", .str fmt),
          ("entryCount", .num (getAuditLogRes s {}).length)])) ∧
    (getAuditLogRes s {}).length = s.auditLog.length ∧
    (exportAuditLog env fmt s).2.auditLog.length = min (s.auditLog.length + 1) 1000 := by
  refine ⟨?_, rfl, getAuditLogRes_noFilters_length s, ?_⟩
  · show (if fmt = "json" then some (ExportOutput.jsonOut
        (.arr ((getAuditLogRes s {}).map entryToJson)))
      else if fmt = "csv" then some (.csvOut (csvOfLogs (getAuditLogRes s {})))
      else none) = none
    rw [if_neg h1, if_neg h2]
  · rw [show (exportAuditLog env fmt s).2.auditLog =
      pushCap s.auditLog (mkAuditEntry env s.currentUser "audit_log_exported"
        (.obj [("format", .str fmt),
          ("entryCount", .num (getAuditLogRes s {}).length)])) from rfl]
    rw [pushCap_length_eq]

theorem C10_unknown_format_witness :
    ("xml" : String) ≠ "json" ∧ ("xml" : String) ≠ "csv" ∧
    (exportAuditLog env0 "xml" baseState).1 = none ∧
    (exportAuditLog env0 "xml" baseState).2.auditLog.length =
      min (baseState.auditLog.length + 1) 1000 :=
  ⟨by decide, by decide,
    (C10_unknown_format_amended env0 baseState "xml" (by decide) (by decide)).1,
    (C10_unknown_format_amended env0 baseState "xml" (by decide) (by decide)).2.2.2⟩
